import Mathlib

/-! Verification of `src/capitulo_1/codigo.py`: a shallow embedding of the
`Card` named tuple, the `FrenchDeck` sequence class, the `spades_high`
ranking function and the `Vector` class, together with proofs of the
specified properties.
-/

namespace Codigo

/-- Model of `Card = collections.namedtuple("Card", ["rank", "suit"])`:
an immutable pair of strings with structural equality. -/
structure Card where
  rank : String
  suit : String
deriving DecidableEq, Repr

namespace FrenchDeck

/-- The class attribute `ranks = [str(n) for n in range(2, 11)] + list("JQKA")`. -/
def ranks : List String := (List.range' 2 9).map (fun n => toString n) ++ ["J", "Q", "K", "A"]

/-- The class attribute `suits = "spades diamonds clubs hearts".split()`. -/
def suits : List String := ["spades", "diamonds", "clubs", "hearts"]

/-- The list `self._cards = [Card(rank, suit) for suit in self.suits for rank in self.ranks]`
built by `__init__`: the outer iteration runs over `suits`, the inner over `ranks`.
Every operation below takes this list as a read-only input and returns a fresh
value, so the sequence built at construction is never mutated. -/
def cards : List Card := suits.flatMap fun suit => ranks.map fun rank => Card.mk rank suit

end FrenchDeck

instance {ε α : Type} [DecidableEq ε] [DecidableEq α] : DecidableEq (Except ε α) := fun a b =>
  match a, b with
  | .ok x, .ok y =>
    if h : x = y then .isTrue (by rw [h]) else .isFalse (by intro hc; cases hc; exact h rfl)
  | .error x, .error y =>
    if h : x = y then .isTrue (by rw [h]) else .isFalse (by intro hc; cases hc; exact h rfl)
  | .ok _, .error _ => .isFalse (by intro hc; cases hc)
  | .error _, .ok _ => .isFalse (by intro hc; cases hc)

/-- Errors an access through `FrenchDeck.__getitem__` can raise:
`IndexError` for an out-of-range scalar index, `ValueError` for a slice
whose step is zero. -/
inductive AccessError where
  | indexOutOfRange : AccessError
  | zeroStep : AccessError
deriving DecidableEq, Repr

/-- Scalar access `__getitem__(self, position)` = `self._cards[position]` for an integer
`position`: Python list indexing normalizes a negative index by adding the
length and raises `IndexError` when the normalized index is outside
`[0, len)`. -/
def getitem (l : List Card) (i : Int) : Except AccessError Card :=
  let j : Int := if i < 0 then i + l.length else i
  if j < 0 then .error .indexOutOfRange
  else
    match l.get? j.toNat with
    | some c => .ok c
    | none => .error .indexOutOfRange

/-- The element-collection loop of Python list slicing: starting at `i`,
advance by `step` while `i` is on the near side of `stop`, collecting
`l[i]` at each step.  `fuel` bounds the recursion; `l.length + 1` steps
always suffice for normalized bounds. -/
def sliceLoop (l : List Card) : Nat → Int → Int → Int → List Card
  | 0, _, _, _ => []
  | fuel + 1, i, stop, step =>
    if (0 < step ∧ i < stop) ∨ (step < 0 ∧ stop < i) then
      (l.get? i.toNat).toList ++ sliceLoop l fuel (i + step) stop step
    else []

/-- Slice access `self._cards[start:stop:step]`: Python list slicing.  A zero step
raises `ValueError`; otherwise `start` and `stop` are defaulted and
clamped exactly as by CPython's `slice.indices`, and the elements are
collected by stepping from `start` toward `stop`. -/
def getslice (l : List Card) (start stop step : Option Int) :
    Except AccessError (List Card) :=
  let st : Int := step.getD 1
  if st = 0 then .error .zeroStep
  else
    let n : Int := l.length
    let lower : Int := if 0 < st then 0 else -1
    let upper : Int := if 0 < st then n else n - 1
    let clamp : Int → Int := fun v => max lower (min upper (if v < 0 then v + n else v))
    let start' : Int := match start with
      | none => if 0 < st then lower else upper
      | some v => clamp v
    let stop' : Int := match stop with
      | none => if 0 < st then upper else lower
      | some v => clamp v
    .ok (sliceLoop l (l.length + 1) start' stop' st)

/-- Containment `card in deck`: with no `__contains__`, Python falls back to a linear
scan through `__getitem__`, comparing elements with `==` (structural
tuple equality). -/
def containsCard (l : List Card) (c : Card) : Bool := l.contains c

/-- The two failure modes of `spades_high`: `ValueError` from
`FrenchDeck.ranks.index(card.rank)` when the rank is absent, and
`KeyError` from `suit_values[card.suit]` when the suit is absent. -/
inductive RankingError where
  | unknownRank : RankingError
  | unknownSuit : RankingError
deriving DecidableEq, Repr

/-- Python `list.index(x)`: the zero-based position of the first occurrence of
`x`, or an error (`none`) when `x` does not occur. -/
def listIndex (x : String) : List String → Option Nat
  | [] => none
  | y :: ys => if y = x then some 0 else (listIndex x ys).map (· + 1)

/-- The table `suit_values = dict(spades=3, hearts=2, diamonds=1, clubs=0)`,
kept in insertion order as an association list. -/
def suit_values : List (String × Nat) :=
  [("spades", 3), ("hearts", 2), ("diamonds", 1), ("clubs", 0)]

/-- Lookup `suit_values[s]`: dictionary access, `none` models `KeyError`. -/
def suitValue (s : String) : Option Nat :=
  (suit_values.find? fun p => p.1 = s).map fun p => p.2

/-- The ranking function `spades_high(card)`: first `FrenchDeck.ranks.index(card.rank)` (raising
`ValueError` for an unknown rank), then
`rank_value * len(suit_values) + suit_values[card.suit]` (raising
`KeyError` for an unknown suit). -/
def spades_high (card : Card) : Except RankingError Nat :=
  match listIndex card.rank FrenchDeck.ranks with
  | none => .error .unknownRank
  | some rank_value =>
    match suitValue card.suit with
    | none => .error .unknownSuit
    | some w => .ok (rank_value * suit_values.length + w)

/-- The total sort key Python's `sorted(deck, key=spades_high)` computes:
on every deck card `spades_high` succeeds, so the fallback value is
never used for the lists being sorted. -/
def sortKey (c : Card) : Nat := ((spades_high c).toOption).getD 0

/-- Insertion of a card into an already key-sorted list: it goes before
the first element whose key is at least its own, so an element inserted
ahead of later equal-key elements stays ahead of them (stability). -/
def insertByKey (c : Card) : List Card → List Card
  | [] => [c]
  | x :: xs => if sortKey c ≤ sortKey x then c :: x :: xs else x :: insertByKey c xs

/-- A stable ascending sort by `sortKey`, modelling the observable
contract of Python's `sorted(deck, key=spades_high)` (a stable sort in
ascending key order). -/
def sortedByKey : List Card → List Card
  | [] => []
  | x :: xs => insertByKey x (sortedByKey xs)

/-- Predicate used to state upper bounds on successful `spades_high`
results: the computation succeeded and its value is at most `m`. -/
def okLe (e : Except RankingError Nat) (m : Nat) : Bool :=
  match e with
  | .ok n => n ≤ m
  | .error _ => false

/-- Model of the `Vector` class: two numeric components.  The float
components of the source are modelled as real numbers. -/
structure Vector where
  x : ℝ
  y : ℝ

/-- Magnitude `__abs__(self)` = `math.hypot(self.x, self.y)`, the
Euclidean norm `sqrt(x^2 + y^2)`. -/
noncomputable def Vector.abs (v : Vector) : ℝ := Real.sqrt (v.x ^ 2 + v.y ^ 2)

/-- Truthiness `__bool__(self)` = `bool(abs(self))`: a float is truthy
exactly when it is nonzero. -/
def Vector.toBool (v : Vector) : Prop := v.abs ≠ 0

section Lemmas

/-- Auxiliary: `list.index` succeeds exactly on the members of the list. -/
theorem listIndex_isSome_iff (x : String) : ∀ l : List String, (listIndex x l).isSome ↔ x ∈ l
  | [] => by simp [listIndex]
  | y :: ys => by
    rw [listIndex]
    by_cases h : y = x
    · simp [h]
    · rw [if_neg h, Option.isSome_map']
      rw [listIndex_isSome_iff x ys]
      simp only [List.mem_cons]
      exact ⟨fun hm => Or.inr hm, fun hm => hm.elim (fun he => absurd he.symm h) id⟩

/-- Auxiliary: `list.index` raises (returns `none`) on a non-member. -/
theorem listIndex_eq_none_of_not_mem {x : String} {l : List String} (h : x ∉ l) :
    listIndex x l = none := by
  cases hi : listIndex x l with
  | none => rfl
  | some k => exact absurd ((listIndex_isSome_iff x l).1 (by simp [hi])) h

/-- Auxiliary: `list.index` returns some position on a member. -/
theorem listIndex_exists_of_mem {x : String} {l : List String} (h : x ∈ l) :
    ∃ k, listIndex x l = some k :=
  Option.isSome_iff_exists.1 ((listIndex_isSome_iff x l).2 h)

end Lemmas

/-- C1: for every Card whose rank is in the 13-value rank domain and whose
suit has a weight `w` in the `suit_values` table, `spades_high` returns
`rankIndex * 4 + w` where `rankIndex` is the zero-based position of the
rank in `FrenchDeck.ranks`; in particular `spades_high(Card("2","clubs"))
= 0`, `spades_high(Card("2","spades")) = 3`, and
`spades_high(Card("A","spades")) = 51`, the maximum over all 52 deck
cards. -/
theorem spades_high_priority_formula :
    (∀ (c : Card) (k w : Nat), listIndex c.rank FrenchDeck.ranks = some k →
      suitValue c.suit = some w → spades_high c = .ok (k * 4 + w)) ∧
    spades_high (Card.mk "2" "clubs") = .ok 0 ∧
    spades_high (Card.mk "2" "spades") = .ok 3 ∧
    spades_high (Card.mk "A" "spades") = .ok 51 ∧
    ∀ c ∈ FrenchDeck.cards, okLe (spades_high c) 51 = true := by
  refine ⟨?_, by decide, by decide, by decide, by decide⟩
  intro c k w hk hw
  rw [spades_high, hk, hw]
  rfl

/-- Witness for C1 at concrete inputs: `Card("K","hearts")` has rank
index 11 and suit weight 2, and its priority is bounded by 51 as a deck
card. -/
theorem spades_high_priority_formula_witness :
    spades_high (Card.mk "K" "hearts") = .ok (11 * 4 + 2) ∧
    okLe (spades_high (Card.mk "Q" "diamonds")) 51 = true :=
  ⟨spades_high_priority_formula.1 (Card.mk "K" "hearts") 11 2 (by decide) (by decide),
   spades_high_priority_formula.2.2.2.2 (Card.mk "Q" "diamonds") (by decide)⟩

/-- C2: a freshly constructed deck holds exactly 52 cards, with no
duplicates, covering every (rank, suit) pair.  All embedded operations
are pure functions over this list, so it is fixed at construction and
never mutated. -/
theorem french_deck_52_distinct_cards :
    FrenchDeck.cards.length = 52 ∧ FrenchDeck.cards.Nodup ∧
    ∀ r ∈ FrenchDeck.ranks, ∀ s ∈ FrenchDeck.suits,
      Card.mk r s ∈ FrenchDeck.cards := by
  decide

/-- Witness for C2 at a concrete (rank, suit) pair. -/
theorem french_deck_52_distinct_cards_witness :
    Card.mk "2" "spades" ∈ FrenchDeck.cards :=
  french_deck_52_distinct_cards.2.2 "2" (by decide) "spades" (by decide)

/-- C3: the deck is built with the outer loop over the 4 suits in
declared order (spades, diamonds, clubs, hearts) and the inner loop over
the 13 ranks in declared order: card `13*i + j` is
`Card(ranks[j], suits[i])`; consequently index 0 holds
`Card("2","spades")` and index -1 holds `Card("A","hearts")`. -/
theorem french_deck_construction_order :
    getitem FrenchDeck.cards 0 = .ok (Card.mk "2" "spades") ∧
    getitem FrenchDeck.cards (-1) = .ok (Card.mk "A" "hearts") ∧
    ∀ i < 4, ∀ j < 13,
      getitem FrenchDeck.cards ((13 * i + j : Nat) : Int) =
        .ok (Card.mk (FrenchDeck.ranks.getD j "") (FrenchDeck.suits.getD i "")) := by
  decide

/-- Witness for C3 at the concrete position (suit 3, rank 12): card 51
is the heart ace. -/
theorem french_deck_construction_order_witness :
    getitem FrenchDeck.cards ((13 * 3 + 12 : Nat) : Int) =
      .ok (Card.mk (FrenchDeck.ranks.getD 12 "") (FrenchDeck.suits.getD 3 "")) :=
  french_deck_construction_order.2.2 3 (by decide) 12 (by decide)

/-- C4: sorting the 52-card deck with `spades_high` as key is idempotent,
and in the sorted result, for every fixed rank, the four suits appear in
the order clubs, diamonds, hearts, spades. -/
theorem sorted_deck_idempotent_and_suit_order :
    sortedByKey (sortedByKey FrenchDeck.cards) = sortedByKey FrenchDeck.cards ∧
    ∀ r ∈ FrenchDeck.ranks,
      ((sortedByKey FrenchDeck.cards).filter fun c => c.rank == r).map (fun c => c.suit) =
        ["clubs", "diamonds", "hearts", "spades"] := by
  decide

/-- Witness for C4 at the concrete rank "A". -/
theorem sorted_deck_idempotent_and_suit_order_witness :
    ((sortedByKey FrenchDeck.cards).filter fun c => c.rank == "A").map (fun c => c.suit) =
      ["clubs", "diamonds", "hearts", "spades"] :=
  sorted_deck_idempotent_and_suit_order.2 "A" (by decide)

/-- C5 counterexample: for `Card("X","beasts")` the suit is absent from
the `suit_values` table, yet `spades_high` does not raise the
unknown-suit error: the rank lookup `FrenchDeck.ranks.index("X")` runs
first and its error is the one raised. -/
theorem spades_high_unknown_suit_counterexample :
    suitValue "beasts" = none ∧
    spades_high (Card.mk "X" "beasts") = .error .unknownRank ∧
    spades_high (Card.mk "X" "beasts") ≠ .error .unknownSuit := by
  decide

/-- C5 (amended): for every Card whose rank is in the declared 13-value
rank domain and whose suit has no entry in the `suit_values` table,
`spades_high` raises the unknown-suit error — no default weight is
substituted, the error is the result. -/
theorem spades_high_unknown_suit :
    ∀ c : Card, c.rank ∈ FrenchDeck.ranks → suitValue c.suit = none →
      spades_high c = .error .unknownSuit := by
  intro c h1 h2
  obtain ⟨k, hk⟩ := listIndex_exists_of_mem h1
  rw [spades_high, hk, h2]

/-- Witness for amended C5 at `Card("2","beasts")`. -/
theorem spades_high_unknown_suit_witness :
    spades_high (Card.mk "2" "beasts") = .error .unknownSuit :=
  spades_high_unknown_suit (Card.mk "2" "beasts") (by decide) (by decide)

/-- C6 counterexample: the slice `deck[0:10:0]` does fail — a zero step
makes Python list slicing raise `ValueError`, so slice access is not
error-free for every (start, stop, step). -/
theorem getslice_zero_step_counterexample :
    getslice FrenchDeck.cards (some 0) (some 10) (some 0) = .error .zeroStep ∧
    (getslice FrenchDeck.cards (some 0) (some 10) (some 0)).toOption = none := by
  decide

/-- C6 (amended): scalar access at any integer position whose normalized
index (negative positions normalized by adding 52) falls outside
`[0, 52)` fails with the index-out-of-range error, and every slice whose
step is not zero (including an omitted step) returns a possibly-empty
list without error; only a zero step makes a slice fail. -/
theorem getitem_out_of_range_and_slice_total :
    (∀ i : Int,
      ((if i < 0 then i + 52 else i) < 0 ∨ 52 ≤ (if i < 0 then i + 52 else i)) →
      getitem FrenchDeck.cards i = .error .indexOutOfRange) ∧
    (∀ start stop step : Option Int, step ≠ some 0 →
      ∃ res, getslice FrenchDeck.cards start stop step = .ok res) := by
  have hl : FrenchDeck.cards.length = 52 := by decide
  constructor
  · intro i h
    rw [getitem, hl]
    simp only [Nat.cast_ofNat]
    rcases h with h | h
    · rw [if_pos h]
    · rw [if_neg (by omega)]
      have hnone : FrenchDeck.cards.get? (if i < 0 then i + 52 else i).toNat = none := by
        rw [List.get?_eq_none, hl]
        omega
      rw [hnone]
  · intro start stop step h
    have hst : (step.getD 1 : Int) ≠ 0 := by
      cases step with
      | none => decide
      | some k => simp only [Option.getD_some]; intro hk; exact h (by rw [hk])
    rw [getslice, if_neg hst]
    exact ⟨_, rfl⟩

/-- Witness for amended C6: position 52 normalizes to 52, out of range,
and the reverse-step slice `deck[::-3]` returns a list. -/
theorem getitem_out_of_range_and_slice_total_witness :
    getitem FrenchDeck.cards 52 = .error .indexOutOfRange ∧
    ∃ res, getslice FrenchDeck.cards none none (some (-3)) = .ok res :=
  ⟨getitem_out_of_range_and_slice_total.1 52 (by decide),
   getitem_out_of_range_and_slice_total.2 none none (some (-3)) (by decide)⟩

/-- C7: the slice `deck[0:10]` is exactly the 10 elements at positions
0..9 in order, and `deck[0:10:2]` is exactly the 5 elements at positions
0, 2, 4, 6, 8. -/
theorem getslice_first_ten_and_stride_two :
    getslice FrenchDeck.cards (some 0) (some 10) none =
      .ok ((List.range 10).filterMap fun k => (getitem FrenchDeck.cards (k : Int)).toOption) ∧
    ((List.range 10).filterMap fun k => (getitem FrenchDeck.cards (k : Int)).toOption).length
      = 10 ∧
    getslice FrenchDeck.cards (some 0) (some 10) (some 2) =
      .ok ([0, 2, 4, 6, 8].filterMap fun k => (getitem FrenchDeck.cards (k : Int)).toOption) ∧
    ([0, 2, 4, 6, 8].filterMap fun k => (getitem FrenchDeck.cards (k : Int)).toOption).length
      = 5 := by
  decide

/-- C8: containment in the deck holds exactly when some element is
structurally equal to the probed Card, and it never raises, even for a
suit outside the domain: the queen of hearts is in the deck, the queen
of beasts is not (and the check still returns a boolean). -/
theorem contains_iff_structural_equality :
    (∀ c : Card, containsCard FrenchDeck.cards c = true ↔ c ∈ FrenchDeck.cards) ∧
    containsCard FrenchDeck.cards (Card.mk "Q" "hearts") = true ∧
    containsCard FrenchDeck.cards (Card.mk "Q" "beasts") = false := by
  refine ⟨?_, by decide, by decide⟩
  intro c
  simp [containsCard, List.contains]

/-- C9: a Vector is truthy exactly when its magnitude is nonzero,
equivalently when some component is nonzero; the zero vector is falsy
and `Vector(2, 4)` is truthy. -/
theorem vector_truthy_iff_nonzero :
    (∀ v : Vector, v.toBool ↔ v.abs ≠ 0) ∧
    (∀ v : Vector, v.toBool ↔ (v.x ≠ 0 ∨ v.y ≠ 0)) ∧
    ¬ (Vector.mk 0 0).toBool ∧
    (Vector.mk 2 4).toBool := by
  have habs : ∀ v : Vector, v.abs = 0 ↔ v.x = 0 ∧ v.y = 0 := by
    intro v
    rw [Vector.abs, Real.sqrt_eq_zero']
    constructor
    · intro hle
      have hx := sq_nonneg v.x
      have hy := sq_nonneg v.y
      have hx0 : v.x ^ 2 = 0 := by linarith
      have hy0 : v.y ^ 2 = 0 := by linarith
      exact ⟨sq_eq_zero_iff.1 hx0, sq_eq_zero_iff.1 hy0⟩
    · rintro ⟨hx, hy⟩
      rw [hx, hy]
      norm_num
  refine ⟨fun v => Iff.rfl, ?_, ?_, ?_⟩
  · intro v
    rw [Vector.toBool, Ne, habs v, not_and_or]
  · intro h
    exact h ((habs _).2 ⟨rfl, rfl⟩)
  · intro h
    exact absurd ((habs _).1 h).1 (by norm_num)

/-- C10: for every Card whose suit is in the `suit_values` table but
whose rank is not one of the 13 declared ranks, `spades_high` fails with
the rank-lookup error, which is distinct from the unknown-suit error;
and a rank inside the declared domain is a necessary condition for
`spades_high` to return a value at all. -/
theorem spades_high_unknown_rank :
    (∀ (c : Card) (w : Nat), suitValue c.suit = some w → c.rank ∉ FrenchDeck.ranks →
      spades_high c = .error .unknownRank) ∧
    RankingError.unknownRank ≠ RankingError.unknownSuit ∧
    (∀ (c : Card) (n : Nat), spades_high c = .ok n → c.rank ∈ FrenchDeck.ranks) := by
  refine ⟨?_, by decide, ?_⟩
  · intro c w _ h
    rw [spades_high, listIndex_eq_none_of_not_mem h]
  · intro c n h
    by_contra hc
    rw [spades_high, listIndex_eq_none_of_not_mem hc] at h
    exact Except.noConfusion h

/-- Witness for C10: `Card("1","spades")` has an in-table suit and an
out-of-domain rank and hits the rank-lookup error, while the successful
`Card("2","clubs")` indeed has a rank in the declared domain. -/
theorem spades_high_unknown_rank_witness :
    spades_high (Card.mk "1" "spades") = .error .unknownRank ∧
    (Card.mk "2" "clubs").rank ∈ FrenchDeck.ranks :=
  ⟨spades_high_unknown_rank.1 (Card.mk "1" "spades") 3 (by decide) (by decide),
   spades_high_unknown_rank.2.2 (Card.mk "2" "clubs") 0 (by decide)⟩

end Codigo
